import Mathlib

/-!
Verification of the Academic Achievers scholarship application (src/app.py)
against its natural-language specification.

The development shallowly embeds the parts of `app.py` that the claims
touch: the `scholarships` browse route (text/country filter and
deadline sorting), the `eligibility` form handler, the `api_eligibility`
JSON handler, the checklist storage round-trip, and the admin
`edit_scholarship` update.

Modelling conventions:
- SQLite rows become the `Scholarship` structure.  The nullable text
  columns `university`, `level`, `field`, `tags` are modelled as plain
  strings with `""` for NULL: the only comparisons the embedded code
  performs on them are SQL `=` against a non-empty criterion, under
  which NULL and `""` behave identically (both fail to match).
- `REAL` values (`min_gpa`, parsed GPA input) are modelled as `ℚ`.
  IEEE-754 rounding of Python floats is abstracted away; the embedded
  comparisons are exact rational comparisons of the decimal literals
  involved.  Non-finite literals such as "inf" and "nan" are outside
  the model and treated by `pyFloat?` as parse failures.
- Python `str.strip`/`str.lower` are modelled over the ASCII range
  (`Char.isWhitespace`, `Char.toLower`); the data the application
  stores and compares in the claims is ASCII.
- Code that can raise an exception (the unguarded `float(...)` calls)
  returns `Except Unit _`; `Except.error ()` marks the request aborting
  with an uncaught `ValueError`.
-/

/-- A row of the `scholarships` table (schema in `init_db`, app.py:59-74). -/
structure Scholarship where
  id : Nat
  name : String
  country : String
  university : String
  level : String
  field : String
  tags : String
  deadline : Option String
  link : String
  checklist : String
  min_gpa : Option ℚ
  is_international_only : Bool
  image_filename : Option String
  brochure_filename : Option String
deriving DecidableEq

/-- Python `str.strip()` (whitespace from both ends), as used on the
extracted request parameters. -/
def pyStrip (s : String) : String :=
  String.mk (((s.data.dropWhile Char.isWhitespace).reverse.dropWhile
    Char.isWhitespace).reverse)

/-- Python `str.lower()` (ASCII case folding). -/
def pyLower (s : String) : String :=
  String.mk (s.data.map Char.toLower)

/-- Python's `needle in hay` on strings: contiguous-substring test. -/
def pyIn (needle hay : String) : Bool :=
  decide (needle.data <:+: hay.data)

/-- Value of a decimal digit character, `none` for non-digits. -/
def digitVal? (c : Char) : Option ℕ :=
  if c == '0' then some 0 else if c == '1' then some 1
  else if c == '2' then some 2 else if c == '3' then some 3
  else if c == '4' then some 4 else if c == '5' then some 5
  else if c == '6' then some 6 else if c == '7' then some 7
  else if c == '8' then some 8 else if c == '9' then some 9
  else none

/-- Greedily consume decimal digits, returning accumulated value, the
number of digits consumed, and the rest of the input. -/
def takeDigits : List Char → ℕ → ℕ → ℕ × ℕ × List Char
  | [], v, n => (v, n, [])
  | c :: rest, v, n =>
    match digitVal? c with
    | some d => takeDigits rest (v * 10 + d) (n + 1)
    | none => (v, n, c :: rest)

/-- The rational `sgn * mant * 10 ^ k`, built with `mkRat` so that the
value is a normalized fraction. -/
def ratOfSci (sgn : ℤ) (mant : ℕ) (k : ℤ) : ℚ :=
  match k with
  | Int.ofNat n => mkRat (sgn * ((mant * 10 ^ n : ℕ) : ℤ)) 1
  | Int.negSucc n => mkRat (sgn * (mant : ℤ)) (10 ^ (n + 1))

/-- Trailing part of Python `float(...)` string conversion: an optional
exponent `e[+|-]digits` after a mantissa `sgn * mant / 10 ^ fc`,
requiring the string to end. -/
def finishExp (sgn : ℤ) (mant : ℕ) (fc : ℕ) : List Char → Option ℚ
  | [] => some (ratOfSci sgn mant (0 - (fc : ℤ)))
  | c :: rest =>
    if c == 'e' || c == 'E' then
      let se : ℤ × List Char :=
        match rest with
        | '+' :: r => (1, r)
        | '-' :: r => (-1, r)
        | r => (1, r)
      let te := takeDigits se.2 0 0
      if te.2.1 = 0 then none
      else
        match te.2.2 with
        | [] => some (ratOfSci sgn mant (se.1 * (te.1 : ℤ) - (fc : ℤ)))
        | _ => none
    else none

/-- Core of Python `float(str)` on finite decimal literals:
`[+|-] (digits [. digits] | . digits) [e[+|-]digits]`.  Underscored
literals, unicode digits and the non-finite literals `inf`/`nan` are
outside the model and yield `none`. -/
def pyFloatCore (cs : List Char) : Option ℚ :=
  let sc : ℤ × List Char :=
    match cs with
    | '+' :: r => (1, r)
    | '-' :: r => (-1, r)
    | r => (1, r)
  let ti := takeDigits sc.2 0 0
  match ti.2.2 with
  | '.' :: cs3 =>
    let tf := takeDigits cs3 0 0
    if ti.2.1 + tf.2.1 = 0 then none
    else finishExp sc.1 (ti.1 * 10 ^ tf.2.1 + tf.1) tf.2.1 tf.2.2
  | _ =>
    if ti.2.1 = 0 then none
    else finishExp sc.1 ti.1 0 ti.2.2

/-- Python `float(s)` for a string argument (which strips surrounding
whitespace itself); `none` means `ValueError`. -/
def pyFloat? (s : String) : Option ℚ :=
  pyFloatCore (pyStrip s).data

/-- The idiom `float(raw) if raw else None` applied to an
already-stripped form value (app.py:476 and app.py:388): empty input
means "no value", a non-empty input that does not parse raises
`ValueError`. -/
def pyFloatOrNone (s : String) : Except Unit (Option ℚ) :=
  if s = "" then Except.ok none
  else
    match pyFloat? s with
    | some g => Except.ok (some g)
    | none => Except.error ()

deriving instance DecidableEq for Except

/-- The `%m` directive of `strptime` (CPython `_strptime` regex
`1[0-2]|0[1-9]|[1-9]`): a one- or two-digit month.  The two-digit
alternatives are tried first; when one matches, no shorter match can
rescue an overall failure (the next character would have to be both a
digit and a separator), so a committed choice is faithful. -/
def parseMM : List Char → Option (ℕ × List Char)
  | c1 :: c2 :: rest =>
    match digitVal? c1, digitVal? c2 with
    | some v1, some v2 =>
      if v1 = 1 && v2 ≤ 2 then some (10 + v2, rest)
      else if v1 = 0 && 1 ≤ v2 then some (v2, rest)
      else if 1 ≤ v1 then some (v1, c2 :: rest)
      else none
    | some v1, none => if 1 ≤ v1 then some (v1, c2 :: rest) else none
    | none, _ => none
  | [c1] =>
    match digitVal? c1 with
    | some v1 => if 1 ≤ v1 then some (v1, []) else none
    | none => none
  | [] => none

/-- The `%d` directive of `strptime` (regex `3[01]|[12]\d|0[1-9]|[1-9]`):
a one- or two-digit day of month. -/
def parseDD : List Char → Option (ℕ × List Char)
  | c1 :: c2 :: rest =>
    match digitVal? c1, digitVal? c2 with
    | some v1, some v2 =>
      if v1 = 3 && v2 ≤ 1 then some (30 + v2, rest)
      else if v1 = 1 || v1 = 2 then some (10 * v1 + v2, rest)
      else if v1 = 0 && 1 ≤ v2 then some (v2, rest)
      else if 1 ≤ v1 then some (v1, c2 :: rest)
      else none
    | some v1, none => if 1 ≤ v1 then some (v1, c2 :: rest) else none
    | none, _ => none
  | [c1] =>
    match digitVal? c1 with
    | some v1 => if 1 ≤ v1 then some (v1, []) else none
    | none => none
  | [] => none

/-- Leap-year test of the proleptic Gregorian calendar used by
`datetime`. -/
def isLeap (y : ℕ) : Bool :=
  y % 4 == 0 && (y % 100 != 0 || y % 400 == 0)

/-- Number of days in a month, as validated by the `datetime`
constructor. -/
def daysInMonth (y m : ℕ) : ℕ :=
  if m = 2 then (if isLeap y then 29 else 28)
  else if m = 4 ∨ m = 6 ∨ m = 9 ∨ m = 11 then 30
  else 31

/-- `datetime.strptime(s, "%Y-%m-%d")`: a four-digit year (`%Y` regex
`\d\d\d\d`), dashes, `%m`, `%d`; the whole string must be consumed
("unconverted data remains" otherwise) and the `datetime` constructor
must accept the values (it validates `MINYEAR = 1 ≤ year ≤ MAXYEAR =
9999`, `1 ≤ month ≤ 12` and `1 ≤ day ≤ days_in_month`). -/
def strptimeYMD (s : String) : Option (ℕ × ℕ × ℕ) :=
  match s.data with
  | y1 :: y2 :: y3 :: y4 :: dash1 :: rest =>
    match digitVal? y1, digitVal? y2, digitVal? y3, digitVal? y4 with
    | some a, some b, some c, some d =>
      if dash1 = '-' then
        match parseMM rest with
        | some (m, rest1) =>
          match rest1 with
          | dash2 :: rest2 =>
            if dash2 = '-' then
              match parseDD rest2 with
              | some (dd, rest3) =>
                if rest3 = [] ∧ 1 ≤ ((a * 10 + b) * 10 + c) * 10 + d ∧
                    ((a * 10 + b) * 10 + c) * 10 + d ≤ 9999 ∧
                    1 ≤ m ∧ m ≤ 12 ∧ 1 ≤ dd ∧
                    dd ≤ daysInMonth (((a * 10 + b) * 10 + c) * 10 + d) m then
                  some (((a * 10 + b) * 10 + c) * 10 + d, m, dd)
                else none
              | none => none
            else none
          | [] => none
        | none => none
      else none
    | _, _, _, _ => none
  | _ => none

/-- `parse_date` of the `scholarships` route (app.py:242-246), collapsed
to the chronological key `y * 10000 + m * 100 + d` (the encoding is
order-isomorphic to the parsed `datetime` values, whose time of day is
always midnight).  `none` models the `except`-caught failure, including
the `TypeError` on a missing (`None`) deadline. -/
def pyParseDate : Option String → Option ℕ
  | none => none
  | some s => (strptimeYMD s).map (fun t => t.1 * 10000 + t.2.1 * 100 + t.2.2)

/-- Whether a listing's deadline fails to parse (absent or malformed). -/
def missingDeadline (s : Scholarship) : Bool :=
  (pyParseDate s.deadline).isNone

/-- `datetime.max` (9999-12-31 23:59:59.999999) as a sort key: date part
times `10 ^ 11` plus the microsecond-of-day part.  Every successfully
parsed deadline has a strictly smaller key because its time part is 0. -/
def dtMaxKey : ℕ := 99991231 * 100000000000 + 86399999999

/-- `datetime.min` (0001-01-01 00:00:00) as a sort key.  A parsed
deadline of `"0001-01-01"` has exactly this key. -/
def dtMinKey : ℕ := 10101 * 100000000000

/-- Ascending sort key (app.py:249): the parsed deadline, with
`datetime.max` substituted for unparsable values. -/
def keyAsc (s : Scholarship) : ℕ :=
  match pyParseDate s.deadline with
  | some ymd => ymd * 100000000000
  | none => dtMaxKey

/-- Descending-direction sort key (app.py:252): the parsed deadline,
with `datetime.min` substituted for unparsable values. -/
def keyDesc (s : Scholarship) : ℕ :=
  match pyParseDate s.deadline with
  | some ymd => ymd * 100000000000
  | none => dtMinKey

/-- Stable insertion of `x` into a list sorted nondecreasingly by
`key`: `x` goes in front of the first strictly-later element but after
earlier-or-equal ones, matching the tie behaviour of Python's stable
`list.sort`. -/
def orderedInsertKey {α : Type} (key : α → ℕ) (x : α) : List α → List α
  | [] => [x]
  | y :: ys => if key x ≤ key y then x :: y :: ys else y :: orderedInsertKey key x ys

/-- Stable nondecreasing sort by `key`; extensionally equal to Python's
`list.sort(key=...)` because stable sorts agree. -/
def sortByKey {α : Type} (key : α → ℕ) : List α → List α
  | [] => []
  | x :: xs => orderedInsertKey key x (sortByKey key xs)

/-- Stable insertion for the reversed comparison, matching
`list.sort(key=..., reverse=True)` (descending, ties in input order). -/
def orderedInsertKeyRev {α : Type} (key : α → ℕ) (x : α) : List α → List α
  | [] => [x]
  | y :: ys => if key y ≤ key x then x :: y :: ys else y :: orderedInsertKeyRev key x ys

/-- Stable nonincreasing sort by `key`. -/
def sortByKeyRev {α : Type} (key : α → ℕ) : List α → List α
  | [] => []
  | x :: xs => orderedInsertKeyRev key x (sortByKeyRev key xs)

/-- The browse route `GET /scholarships` (app.py:222-255): query
parameters are stripped and lowercased, a non-empty `q` keeps listings
whose lowercased name contains it, a non-empty `country` filters the
country column the same way, and `sort` selects the deadline ordering.
(The route also splits each row's checklist for rendering, which does
not affect which listings appear or their order.) -/
def scholarshipsRoute (qRaw countryRaw sortKey : String)
    (rows : List Scholarship) : List Scholarship :=
  let q := pyLower (pyStrip qRaw)
  let country := pyLower (pyStrip countryRaw)
  let items1 := if q = "" then rows else
    rows.filter (fun s => pyIn q (pyLower s.name))
  let items2 := if country = "" then items1 else
    items1.filter (fun s => pyIn country (pyLower s.country))
  if sortKey = "deadline_asc" then sortByKey keyAsc items2
  else if sortKey = "deadline_desc" then sortByKeyRev keyDesc items2
  else items2

/-- A scalar JSON value as delivered by `request.get_json()`.  JSON
`null` and an absent key both become Python `None` and are modelled as
`Option.none` at the use sites; arrays and objects never type-check
against the scalar operations the handler applies and are outside the
model. -/
inductive JsonVal where
  | jnum (q : ℚ)
  | jstr (s : String)
  | jbool (b : Bool)
deriving DecidableEq

/-- Python truthiness of a scalar JSON value (`if is_international:`). -/
def pyTruthy : JsonVal → Bool
  | JsonVal.jnum q => !(q == 0)
  | JsonVal.jstr s => !(s == "")
  | JsonVal.jbool b => b

/-- Python `float(x)` on a scalar JSON value: numbers pass through,
strings are parsed, booleans coerce to 0/1; `none` is a raised
`TypeError`/`ValueError`. -/
def jsonFloat? : JsonVal → Option ℚ
  | JsonVal.jnum q => some q
  | JsonVal.jstr s => pyFloat? s
  | JsonVal.jbool b => some (if b then mkRat 1 1 else mkRat 0 1)

/-- The GPA gate of the `eligibility` form handler (app.py:496-503):
skip (`continue`) a row exactly when the caller supplied a GPA, the row
has a `min_gpa`, and the caller's GPA is below it.  By this point the
caller's GPA is already a number or `None` (the unguarded parse happened
at app.py:476), and `min_gpa` comes from a `REAL` column, so the
guarded `float(r["min_gpa"])` conversion never fails. -/
def formGateKeep (gpa : Option ℚ) (r : Scholarship) : Bool :=
  match gpa, r.min_gpa with
  | some g, some m => !(decide (g < m))
  | _, _ => true

/-- The GPA gate of `api_eligibility` (app.py:545-552): the same
comparison, but the caller's value is an arbitrary JSON scalar and
`float(gpa)` runs inside the `try`, so a non-numeric value is caught by
the bare `except` and the row is kept. -/
def apiGateKeep (gpa : Option JsonVal) (r : Scholarship) : Bool :=
  match gpa, r.min_gpa with
  | some v, some m =>
    match jsonFloat? v with
    | some g => !(decide (g < m))
    | none => true
  | _, _ => true

/-- The POST branch of the `eligibility` form handler (app.py:471-503).
Inputs are the raw form fields (`""` when absent); `isInternational` is
the raw checkbox value (`some "on"` when ticked).  The dynamically
built SQL query is the conjunction of the clauses appended for each
non-empty criterion; appended `country = ?` clauses compare exactly.
`Except.error ()` is the uncaught `ValueError` of
`float(gpa_raw)` on a non-empty, non-numeric GPA. -/
def eligibilityPost (countryRaw levelRaw fieldRaw gpaRaw : String)
    (isInternational : Option String) (rows : List Scholarship) :
    Except Unit (List Scholarship) :=
  let country := pyStrip countryRaw
  let level := pyStrip levelRaw
  let field := pyStrip fieldRaw
  match pyFloatOrNone (pyStrip gpaRaw) with
  | Except.error e => Except.error e
  | Except.ok gpa =>
    let is_international := isInternational == some "on"
    let selected := rows.filter (fun r =>
      (country == "" || r.country == country) &&
      (level == "" || r.level == level) &&
      (field == "" || r.field == field) &&
      (!is_international || r.is_international_only))
    Except.ok (selected.filter (formGateKeep gpa))

/-- The `POST /api/eligibility` handler (app.py:514-570).  Inputs are
the extracted JSON fields: strings for `country`/`level`/`field` (the
handler calls `.strip()` on them), and optional JSON scalars for `gpa`
and `is_international` (`none` for an absent key or JSON `null`).  The
handler serializes a projection of each kept row; the selection of rows
is what is modelled. -/
def apiEligibility (countryRaw levelRaw fieldRaw : String)
    (gpa : Option JsonVal) (isInternational : Option JsonVal)
    (rows : List Scholarship) : List Scholarship :=
  let country := pyStrip countryRaw
  let level := pyStrip levelRaw
  let field := pyStrip fieldRaw
  let is_international := match isInternational with
    | none => false
    | some v => pyTruthy v
  let selected := rows.filter (fun r =>
    (country == "" || r.country == country) &&
    (level == "" || r.level == level) &&
    (field == "" || r.field == field) &&
    (!is_international || r.is_international_only))
  selected.filter (apiGateKeep gpa)

/-- One Python-level line-boundary character of `str.splitlines`. -/
def isLineBreak (c : Char) : Bool :=
  c == '\n' || c == '\r' || c == '\x0b' || c == '\x0c' ||
  c == '\x1c' || c == '\x1d' || c == '\x1e' || c == '\x85' ||
  c == '\u2028' || c == '\u2029'

/-- `str.splitlines` worker: accumulate the current line (reversed in
`acc`), emit it at each boundary, and drop a trailing empty line.  The
flag records that the previous character was `\r`, so that a following
`\n` is part of the same `\r\n` boundary and is skipped. -/
def splitlinesAux : List Char → List Char → Bool → List (List Char)
  | [], acc, _ => if acc.isEmpty then [] else [acc.reverse]
  | c :: rest, acc, afterCR =>
    if afterCR && c == '\n' then splitlinesAux rest acc false
    else if c == '\r' then acc.reverse :: splitlinesAux rest [] true
    else if isLineBreak c then acc.reverse :: splitlinesAux rest [] false
    else splitlinesAux rest (c :: acc) false

/-- Python `str.splitlines()`. -/
def pySplitlines (s : String) : List String :=
  (splitlinesAux s.data [] false).map (fun l => String.mk l)

/-- `"\n".join(items)` at the character level. -/
def joinNL : List (List Char) → List Char
  | [] => []
  | l :: ls =>
    match ls with
    | [] => l
    | _ :: _ => l ++ '\n' :: joinNL ls

/-- The checklist write path (app.py:105): items are stored joined by
newlines. -/
def storeChecklist (items : List String) : String :=
  String.mk (joinNL (items.map String.data))

/-- The checklist read path (app.py:214-216 and the analogous template
routes): a falsy stored value (`None` or `""`) yields `[]`, anything
else is split on line boundaries. -/
def readChecklist (stored : Option String) : List String :=
  match stored with
  | none => []
  | some s => if s = "" then [] else pySplitlines s

/-- The POST branch of the admin edit route, app.py:377-435: the raw
form fields and the optional uploaded files (modelled by their
filenames; a missing file part or an empty filename is falsy and keeps
the stored name). -/
structure EditForm where
  name : String
  country : String
  university : String
  level : String
  field : String
  tags : String
  deadline : String
  link : String
  checklist : String
  min_gpa : String
  is_international_only : Option String
  image_file : Option String
  brochure_file : Option String
deriving DecidableEq

/-- Python `name.replace(' ', '_')` used to build upload filenames. -/
def pyUnderscore (s : String) : String :=
  String.mk (s.data.map (fun c => if c = ' ' then '_' else c))

/-- The `UPDATE` performed by `edit_scholarship` (app.py:369-435) on the
stored row `r`: every column is set from the submitted form, except
that `image_filename`/`brochure_filename` start from the stored values
and are only replaced when a file with a non-empty filename was
uploaded.  `Except.error ()` is the uncaught `ValueError` of
`float(min_gpa_raw)` on a non-empty, non-numeric minimum GPA. -/
def editScholarship (r : Scholarship) (f : EditForm) :
    Except Unit Scholarship :=
  let name := pyStrip f.name
  match pyFloatOrNone (pyStrip f.min_gpa) with
  | Except.error e => Except.error e
  | Except.ok mg =>
    let image_filename := match f.image_file with
      | some fn => if fn ≠ "" then
          some ("img_" ++ pyUnderscore name ++ "_" ++ fn)
        else r.image_filename
      | none => r.image_filename
    let brochure_filename := match f.brochure_file with
      | some fn => if fn ≠ "" then
          some ("doc_" ++ pyUnderscore name ++ "_" ++ fn)
        else r.brochure_filename
      | none => r.brochure_filename
    Except.ok
      { id := r.id
        name := name
        country := pyStrip f.country
        university := pyStrip f.university
        level := pyStrip f.level
        field := pyStrip f.field
        tags := pyStrip f.tags
        deadline := if pyStrip f.deadline = "" then none
          else some (pyStrip f.deadline)
        link := pyStrip f.link
        checklist := pyStrip f.checklist
        min_gpa := mg
        is_international_only := f.is_international_only == some "on"
        image_filename := image_filename
        brochure_filename := brochure_filename }

/-- A listing with a minimum GPA of 3.5 and no deadline. -/
def sampleGpa : Scholarship :=
  { id := 1
    name := "Alpha Grant"
    country := "Canada"
    university := ""
    level := "Masters"
    field := "CS"
    tags := ""
    deadline := none
    link := "x"
    checklist := ""
    min_gpa := some (mkRat 7 2)
    is_international_only := false
    image_filename := none
    brochure_filename := none }

/-- A listing with no GPA requirement and no deadline. -/
def sampleNoGpa : Scholarship :=
  { sampleGpa with id := 2, name := "Beta Fund", min_gpa := none }

/-- A listing whose deadline parses to the minimum representable
`datetime` date. -/
def sampleMinDate : Scholarship :=
  { sampleGpa with
    id := 3
    name := "Gamma Award"
    deadline := some "0001-01-01"
    min_gpa := none }

/-- An international-only listing. -/
def sampleIntl : Scholarship :=
  { sampleGpa with
    id := 4
    name := "Delta Stipend"
    is_international_only := true
    min_gpa := none }

/-- A listing whose deadline string is not a date. -/
def sampleBadDate : Scholarship :=
  { sampleGpa with
    id := 5
    name := "Epsilon Prize"
    deadline := some "soon"
    min_gpa := none }

/-- A stored listing carrying both upload filenames. -/
def sampleStored : Scholarship :=
  { sampleGpa with
    id := 6
    image_filename := some "img_old.png"
    brochure_filename := some "doc_old.pdf" }

/-- An edit-form submission with no uploaded files. -/
def sampleEditForm : EditForm :=
  { name := "Zeta Scholarship"
    country := "Japan"
    university := "U"
    level := "PhD"
    field := "Math"
    tags := "stem"
    deadline := "2026-03-01"
    link := "z"
    checklist := "CV"
    min_gpa := "3.2"
    is_international_only := some "on"
    image_file := none
    brochure_file := some "" }

/-- The row produced by the sample edit. -/
def sampleEdited : Scholarship :=
  { id := 6
    name := "Zeta Scholarship"
    country := "Japan"
    university := "U"
    level := "PhD"
    field := "Math"
    tags := "stem"
    deadline := some "2026-03-01"
    link := "z"
    checklist := "CV"
    min_gpa := some (mkRat 16 5)
    is_international_only := true
    image_filename := some "img_old.png"
    brochure_filename := some "doc_old.pdf" }

/-- The truthiness test applied to the extracted `is_international`
JSON field (`False` default for an absent key). -/
def jsonFlagTruthy : Option JsonVal → Bool
  | none => false
  | some v => pyTruthy v

-- Sanity checks: the embedded functions evaluated on concrete inputs.
example : strptimeYMD "2024-02-29" = some (2024, 2, 29) := by decide
example : strptimeYMD "2023-02-29" = none := by decide
example : strptimeYMD "2024-1-5" = some (2024, 1, 5) := by decide
example : strptimeYMD "2024-13-01" = none := by decide
example : strptimeYMD "2024-05-32" = none := by decide
example : strptimeYMD "2024-05-07x" = none := by decide
example : strptimeYMD "0001-01-01" = some (1, 1, 1) := by decide
example : strptimeYMD "0000-01-01" = none := by decide

example : pySplitlines "a\nb" = ["a", "b"] := by decide
example : pySplitlines "a\r\nb\n" = ["a", "b"] := by decide
example : pySplitlines "" = [] := by decide
example : pySplitlines "\n" = [""] := by decide

example : pyFloat? "3.5" = some (mkRat 7 2) := by decide
example : pyFloat? "abc" = none := by decide
example : pyFloat? "-2e1" = some (mkRat (-20) 1) := by decide
example : pyFloat? " 4." = some (mkRat 4 1) := by decide
example : pyFloat? "3..5" = none := by decide
example : pyFloatOrNone "" = Except.ok none := by decide

example : eligibilityPost "" "" "" "abc" none [sampleGpa] = Except.error () := by decide
example : apiEligibility "" "" "" (some (JsonVal.jstr "abc")) none [sampleGpa] = [sampleGpa] := by decide
example : eligibilityPost "" "" "" "3.0" none [sampleGpa] = Except.ok [] := by decide
example : eligibilityPost "" "" "" "3.0" none [sampleNoGpa] = Except.ok [sampleNoGpa] := by decide
example : eligibilityPost "" "" "" "" none [sampleGpa] = Except.ok [sampleGpa] := by decide
example : apiEligibility "" "" "" (some (JsonVal.jnum (mkRat 3 1))) none [sampleGpa] = [] := by decide
example : eligibilityPost "" "" "" "" (some "on") [sampleGpa, sampleIntl] = Except.ok [sampleIntl] := by decide
example : apiEligibility "" "" "" none (some (JsonVal.jbool false)) [sampleIntl] = [sampleIntl] := by decide
example : scholarshipsRoute "" "" "deadline_desc" [sampleGpa, sampleMinDate] = [sampleGpa, sampleMinDate] := by decide
example : scholarshipsRoute "" "" "deadline_asc" [sampleGpa, sampleMinDate] = [sampleMinDate, sampleGpa] := by decide
example : scholarshipsRoute "alpha" "" "" [sampleGpa, sampleNoGpa] = [sampleGpa] := by decide
example : readChecklist (some (storeChecklist ["a\nb"])) = ["a", "b"] := by decide
example : readChecklist (some (storeChecklist ["Transcript", "Essay"])) = ["Transcript", "Essay"] := by decide

lemma mem_apiEligibility (c l f : String) (gv iv : Option JsonVal)
    (rows : List Scholarship) (r : Scholarship) :
    r ∈ apiEligibility c l f gv iv rows ↔
      r ∈ rows ∧ (pyStrip c = "" ∨ r.country = pyStrip c)
        ∧ (pyStrip l = "" ∨ r.level = pyStrip l)
        ∧ (pyStrip f = "" ∨ r.field = pyStrip f)
        ∧ (jsonFlagTruthy iv = true → r.is_international_only = true)
        ∧ apiGateKeep gv r = true := by
  unfold apiEligibility jsonFlagTruthy
  simp only [List.mem_filter, Bool.and_eq_true, Bool.or_eq_true, beq_iff_eq,
    Bool.not_eq_true']
  cases iv <;> cases hio : r.is_international_only <;> simp_all <;> tauto

lemma mem_eligibilityPost {c l f gRaw : String} {iv : Option String}
    {rows res : List Scholarship}
    (h : eligibilityPost c l f gRaw iv rows = Except.ok res) (r : Scholarship) :
    r ∈ res ↔ r ∈ rows ∧ (pyStrip c = "" ∨ r.country = pyStrip c)
      ∧ (pyStrip l = "" ∨ r.level = pyStrip l)
      ∧ (pyStrip f = "" ∨ r.field = pyStrip f)
      ∧ ((iv == some "on") = true → r.is_international_only = true)
      ∧ ∃ g, pyFloatOrNone (pyStrip gRaw) = Except.ok g
          ∧ formGateKeep g r = true := by
  unfold eligibilityPost at h
  cases hg : pyFloatOrNone (pyStrip gRaw) with
  | error e => rw [hg] at h; cases h
  | ok g =>
    rw [hg] at h
    cases h
    simp only [List.mem_filter, Bool.and_eq_true, Bool.or_eq_true, beq_iff_eq,
      and_assoc]
    constructor
    · rintro ⟨hr, hc, hl, hf, hi, hk⟩
      refine ⟨hr, hc, hl, hf, ?_, g, rfl, hk⟩
      intro hon
      rcases hi with hi | hi
      · rw [hon] at hi; exact absurd hi (by decide)
      · exact hi
    · rintro ⟨hr, hc, hl, hf, hi, g2, hg2, hk⟩
      cases hg2
      refine ⟨hr, hc, hl, hf, ?_, hk⟩
      rcases hon : (iv == some "on") with _ | _
      · exact Or.inl rfl
      · exact Or.inr (hi (eq_of_beq hon))

lemma pyStrip_empty : pyStrip "" = "" := by decide

lemma eligibilityPost_isOk {c l f gRaw : String} {iv : Option String}
    {rows : List Scholarship} {g : Option ℚ}
    (hg : pyFloatOrNone (pyStrip gRaw) = Except.ok g) :
    ∃ res, eligibilityPost c l f gRaw iv rows = Except.ok res := by
  unfold eligibilityPost
  rw [hg]
  exact ⟨_, rfl⟩

lemma formGateKeep_none (r : Scholarship) : formGateKeep none r = true := by
  cases hm : r.min_gpa <;> simp [formGateKeep, hm]

lemma filter_true_of {α : Type} (p : α → Bool) (l : List α)
    (h : ∀ a, p a = true) : l.filter p = l :=
  List.filter_eq_self.mpr (fun a _ => h a)

/-- Claim C1: in both the form flow and the JSON API, the GPA gate
excludes a listing exactly when the caller supplied a GPA, the listing
has a `min_gpa`, the caller's value converts to a number, and it is
strictly below the listing's minimum; in every other situation
(either side missing, or the caller's value non-numeric) the gate
keeps the listing.  In the form flow the caller's value reaching the
gate is already a number or `None`, and on both paths `min_gpa` comes
from a `REAL` column, so its conversion always succeeds. -/
theorem c1_gpa_gate (g : Option ℚ) (gv : Option JsonVal) (r : Scholarship) :
    (formGateKeep g r = false ↔
      ∃ gq m, g = some gq ∧ r.min_gpa = some m ∧ gq < m)
    ∧ (apiGateKeep gv r = false ↔
      ∃ v gq m, gv = some v ∧ jsonFloat? v = some gq
        ∧ r.min_gpa = some m ∧ gq < m) := by
  constructor
  · cases g with
    | none => simp [formGateKeep]
    | some gq =>
      cases hm : r.min_gpa with
      | none => simp [formGateKeep, hm]
      | some m => simp [formGateKeep, hm]
  · cases gv with
    | none => simp [apiGateKeep]
    | some v =>
      cases hm : r.min_gpa with
      | none => simp [apiGateKeep, hm]
      | some m =>
        cases hj : jsonFloat? v with
        | none => simp [apiGateKeep, hm, hj]
        | some gq => simp [apiGateKeep, hm, hj]

/-- Claim C4: eligibility matching is a pure conjunction over supplied
criteria, on both entry points: a request supplying no criteria returns
every listing, and a country criterion matching no listing returns the
empty list regardless of the rest. -/
theorem c4_conjunctive (rows : List Scholarship) :
    eligibilityPost "" "" "" "" none rows = Except.ok rows
    ∧ apiEligibility "" "" "" none none rows = rows
    ∧ ∀ c : String, pyStrip c ≠ "" → (∀ r ∈ rows, r.country ≠ pyStrip c) →
      eligibilityPost c "" "" "" none rows = Except.ok []
      ∧ apiEligibility c "" "" none none rows = [] := by
  refine ⟨?_, ?_, ?_⟩
  · unfold eligibilityPost
    simp only [pyStrip_empty,
      show pyFloatOrNone "" = Except.ok none from by decide]
    rw [filter_true_of, filter_true_of]
    · intro a; rfl
    · intro a; exact formGateKeep_none a
  · unfold apiEligibility
    simp only [pyStrip_empty]
    rw [filter_true_of, filter_true_of]
    · intro a; rfl
    · intro a; rfl
  · intro c hc hnone
    constructor
    · obtain ⟨res, hres⟩ := @eligibilityPost_isOk c "" "" "" none rows none
        (show pyFloatOrNone (pyStrip "") = Except.ok none from by decide)
      have hres0 : res = [] := by
        refine List.eq_nil_iff_forall_not_mem.mpr (fun r hr => ?_)
        have h := (mem_eligibilityPost hres r).mp hr
        rcases h.2.1 with h1 | h1
        · exact hc h1
        · exact hnone r h.1 h1
      rw [hres, hres0]
    · refine List.eq_nil_iff_forall_not_mem.mpr (fun r hr => ?_)
      have h := (mem_apiEligibility c "" "" none none rows r).mp hr
      rcases h.2.1 with h1 | h1
      · exact hc h1
      · exact hnone r h.1 h1

/-- Witness for C4 at a concrete store: a request with no criteria
returns the whole store, and the country criterion "Nowhere", matched
by no listing, returns the empty list on both entry points. -/
theorem c4_conjunctive_witness :
    eligibilityPost "Nowhere" "" "" "" none [sampleGpa] = Except.ok []
    ∧ apiEligibility "Nowhere" "" "" none none [sampleGpa] = [] :=
  (c4_conjunctive [sampleGpa]).2.2 "Nowhere" (by decide) (by decide)

/-- Claim C7: on both eligibility entry points, supplied country,
level and field criteria are compared by exact, character-for-character
string equality (SQL `=` with the default binary collation), not by
substring or case-insensitive matching. -/
theorem c7_exact_equality (c l f gRaw : String) (gv : Option JsonVal)
    (rows res : List Scholarship) (r : Scholarship) :
    (r ∈ apiEligibility c l f gv none rows ↔
      r ∈ rows ∧ (pyStrip c = "" ∨ r.country.data = (pyStrip c).data)
        ∧ (pyStrip l = "" ∨ r.level.data = (pyStrip l).data)
        ∧ (pyStrip f = "" ∨ r.field.data = (pyStrip f).data)
        ∧ apiGateKeep gv r = true)
    ∧ (eligibilityPost c l f gRaw none rows = Except.ok res →
      (r ∈ res ↔ r ∈ rows ∧ (pyStrip c = "" ∨ r.country.data = (pyStrip c).data)
        ∧ (pyStrip l = "" ∨ r.level.data = (pyStrip l).data)
        ∧ (pyStrip f = "" ∨ r.field.data = (pyStrip f).data)
        ∧ ∃ g, pyFloatOrNone (pyStrip gRaw) = Except.ok g
            ∧ formGateKeep g r = true)) := by
  constructor
  · rw [mem_apiEligibility]
    simp only [← String.ext_iff]
    simp [jsonFlagTruthy]
  · intro h
    rw [mem_eligibilityPost h]
    simp only [← String.ext_iff]
    simp [show ((none : Option String) == some "on") = false from rfl]

/-- Witness for C7: with the exact criterion "Canada" the sample
listing (country "Canada") is selected by the form flow, and the
characterization evaluates as expected. -/
theorem c7_exact_equality_witness :
    sampleGpa ∈ ([sampleGpa] : List Scholarship) ↔
      sampleGpa ∈ [sampleGpa]
      ∧ (pyStrip "Canada" = "" ∨
          sampleGpa.country.data = (pyStrip "Canada").data)
      ∧ (pyStrip "" = "" ∨ sampleGpa.level.data = (pyStrip "").data)
      ∧ (pyStrip "" = "" ∨ sampleGpa.field.data = (pyStrip "").data)
      ∧ ∃ g, pyFloatOrNone (pyStrip "") = Except.ok g
          ∧ formGateKeep g sampleGpa = true :=
  (c7_exact_equality "Canada" "" "" "" none [sampleGpa] [sampleGpa]
    sampleGpa).2 (by decide)

/-- Claim C8: on both entry points, `internationalOnly = true` excludes
every listing whose flag is false regardless of the other criteria,
while a false/absent flag imposes no constraint: membership is then
characterized without reference to `is_international_only`, so flagged
listings are never excluded by it. -/
theorem c8_international_flag (c l f gRaw : String) (gv : Option JsonVal)
    (rows res : List Scholarship) (r : Scholarship) :
    (r.is_international_only = false →
      (eligibilityPost c l f gRaw (some "on") rows = Except.ok res → r ∉ res)
      ∧ r ∉ apiEligibility c l f gv (some (JsonVal.jbool true)) rows)
    ∧ (eligibilityPost c l f gRaw none rows = Except.ok res →
      (r ∈ res ↔ r ∈ rows ∧ (pyStrip c = "" ∨ r.country = pyStrip c)
        ∧ (pyStrip l = "" ∨ r.level = pyStrip l)
        ∧ (pyStrip f = "" ∨ r.field = pyStrip f)
        ∧ ∃ g, pyFloatOrNone (pyStrip gRaw) = Except.ok g
            ∧ formGateKeep g r = true))
    ∧ (r ∈ apiEligibility c l f gv none rows ↔
      r ∈ rows ∧ (pyStrip c = "" ∨ r.country = pyStrip c)
        ∧ (pyStrip l = "" ∨ r.level = pyStrip l)
        ∧ (pyStrip f = "" ∨ r.field = pyStrip f)
        ∧ apiGateKeep gv r = true) := by
  refine ⟨fun hflag => ⟨fun h hr => ?_, fun hr => ?_⟩, fun h => ?_, ?_⟩
  · have hi := ((mem_eligibilityPost h r).mp hr).2.2.2.2.1
    rw [hi (by decide)] at hflag
    exact absurd hflag (by decide)
  · have hi := ((mem_apiEligibility c l f gv (some (JsonVal.jbool true))
      rows r).mp hr).2.2.2.2.1
    rw [hi rfl] at hflag
    exact absurd hflag (by decide)
  · rw [mem_eligibilityPost h]
    simp [show ((none : Option String) == some "on") = false from rfl]
  · rw [mem_apiEligibility]
    simp [jsonFlagTruthy]

/-- Witness for C8: the sample listing is not international-only, so
the flag set to true excludes it from the API results even though every
other criterion matches. -/
theorem c8_international_flag_witness :
    sampleGpa ∉ apiEligibility "" "" "" none
      (some (JsonVal.jbool true)) [sampleGpa] :=
  ((c8_international_flag "" "" "" "" none [sampleGpa] [] sampleGpa).1
    rfl).2

lemma scholarshipsRoute_nosort (qRaw cRaw : String)
    (rows : List Scholarship) :
    scholarshipsRoute qRaw cRaw "" rows =
      (let items1 := if pyLower (pyStrip qRaw) = "" then rows else
        rows.filter (fun t => pyIn (pyLower (pyStrip qRaw)) (pyLower t.name))
       if pyLower (pyStrip cRaw) = "" then items1 else
        items1.filter (fun t =>
          pyIn (pyLower (pyStrip cRaw)) (pyLower t.country))) := by
  unfold scholarshipsRoute
  rw [if_neg (by decide : ¬ ("" : String) = "deadline_asc"),
    if_neg (by decide : ¬ ("" : String) = "deadline_desc")]

lemma mem_scholarshipsFiltered (qRaw cRaw : String)
    (rows : List Scholarship) (s : Scholarship) :
    s ∈ scholarshipsRoute qRaw cRaw "" rows ↔
      s ∈ rows
      ∧ (pyLower (pyStrip qRaw) = "" ∨
          pyIn (pyLower (pyStrip qRaw)) (pyLower s.name) = true)
      ∧ (pyLower (pyStrip cRaw) = "" ∨
          pyIn (pyLower (pyStrip cRaw)) (pyLower s.country) = true) := by
  unfold scholarshipsRoute
  rw [if_neg (by decide : ¬ ("" : String) = "deadline_asc"),
    if_neg (by decide : ¬ ("" : String) = "deadline_desc")]
  by_cases hq : pyLower (pyStrip qRaw) = "" <;>
    by_cases hc : pyLower (pyStrip cRaw) = "" <;>
      (simp [hq, hc, List.mem_filter, and_assoc]; try tauto)

/-- Claim C6: the browse-page text filter keeps a listing iff the
lowercased query is a substring of the lowercased name (and the country
filter does the same against the country column); an empty query is no
filter.  In particular a query equal to a listing's name in any case
keeps that listing, and a query contained in no name empties the
result. -/
theorem c6_text_filter (qRaw cRaw : String) (rows : List Scholarship)
    (s : Scholarship) :
    (s ∈ scholarshipsRoute qRaw cRaw "" rows ↔
      s ∈ rows
      ∧ (pyLower (pyStrip qRaw) = "" ∨
          (pyLower (pyStrip qRaw)).data <:+: (pyLower s.name).data)
      ∧ (pyLower (pyStrip cRaw) = "" ∨
          (pyLower (pyStrip cRaw)).data <:+: (pyLower s.country).data))
    ∧ (pyLower (pyStrip qRaw) = pyLower s.name → s ∈ rows →
        s ∈ scholarshipsRoute qRaw "" "" rows)
    ∧ ((∀ t ∈ rows,
          ¬ (pyLower (pyStrip qRaw)).data <:+: (pyLower t.name).data) →
        scholarshipsRoute qRaw "" "" rows
          = if pyLower (pyStrip qRaw) = "" then rows else []) := by
  refine ⟨?_, ?_, ?_⟩
  · rw [mem_scholarshipsFiltered]
    simp [pyIn]
  · intro hq hs
    rw [mem_scholarshipsFiltered]
    refine ⟨hs, Or.inr ?_, Or.inl (by decide)⟩
    rw [hq]
    simp [pyIn]
  · intro hnone
    rw [scholarshipsRoute_nosort]
    rw [if_pos (show pyLower (pyStrip "") = "" from by decide)]
    by_cases hq : pyLower (pyStrip qRaw) = ""
    · rw [if_pos hq, if_pos hq]
    · rw [if_neg hq, if_neg hq]
      refine List.filter_eq_nil_iff.mpr (fun t ht => ?_)
      simp only [pyIn, decide_eq_true_eq]
      exact hnone t ht

/-- Witness for C6: searching for the sample listing's exact name in
capitals keeps that listing. -/
theorem c6_text_filter_witness :
    sampleGpa ∈ scholarshipsRoute "ALPHA GRANT" "" "" [sampleGpa] :=
  (c6_text_filter "ALPHA GRANT" "" [sampleGpa] sampleGpa).2.1
    (by decide) (by decide)

lemma mem_orderedInsertKey {α : Type} (key : α → ℕ) (x a : α)
    (l : List α) : a ∈ orderedInsertKey key x l ↔ a = x ∨ a ∈ l := by
  induction l with
  | nil => simp [orderedInsertKey]
  | cons y ys ih =>
    rw [orderedInsertKey]
    by_cases hxy : key x ≤ key y
    · rw [if_pos hxy]
      simp [List.mem_cons]
    · rw [if_neg hxy]
      simp only [List.mem_cons, ih]
      tauto

lemma pairwise_orderedInsertKey {α : Type} (key : α → ℕ) (x : α)
    (l : List α) (h : l.Pairwise (fun a b => key a ≤ key b)) :
    (orderedInsertKey key x l).Pairwise (fun a b => key a ≤ key b) := by
  induction l with
  | nil => simp [orderedInsertKey]
  | cons y ys ih =>
    have hy := List.pairwise_cons.mp h
    rw [orderedInsertKey]
    by_cases hxy : key x ≤ key y
    · rw [if_pos hxy]
      refine List.pairwise_cons.mpr ⟨?_, h⟩
      intro b hb
      rcases List.mem_cons.mp hb with rfl | hb
      · exact hxy
      · exact le_trans hxy (hy.1 b hb)
    · rw [if_neg hxy]
      refine List.pairwise_cons.mpr ⟨?_, ih hy.2⟩
      intro b hb
      rcases (mem_orderedInsertKey key x b ys).mp hb with rfl | hb
      · exact le_of_not_le hxy
      · exact hy.1 b hb

lemma pairwise_sortByKey {α : Type} (key : α → ℕ) (l : List α) :
    (sortByKey key l).Pairwise (fun a b => key a ≤ key b) := by
  induction l with
  | nil => simp [sortByKey]
  | cons x xs ih =>
    rw [sortByKey]
    exact pairwise_orderedInsertKey key x _ ih

lemma mem_orderedInsertKeyRev {α : Type} (key : α → ℕ) (x a : α)
    (l : List α) : a ∈ orderedInsertKeyRev key x l ↔ a = x ∨ a ∈ l := by
  induction l with
  | nil => simp [orderedInsertKeyRev]
  | cons y ys ih =>
    rw [orderedInsertKeyRev]
    by_cases hxy : key y ≤ key x
    · rw [if_pos hxy]
      simp [List.mem_cons]
    · rw [if_neg hxy]
      simp only [List.mem_cons, ih]
      tauto

lemma pairwise_orderedInsertKeyRev {α : Type} (key : α → ℕ) (x : α)
    (l : List α) (h : l.Pairwise (fun a b => key b ≤ key a)) :
    (orderedInsertKeyRev key x l).Pairwise (fun a b => key b ≤ key a) := by
  induction l with
  | nil => simp [orderedInsertKeyRev]
  | cons y ys ih =>
    have hy := List.pairwise_cons.mp h
    rw [orderedInsertKeyRev]
    by_cases hxy : key y ≤ key x
    · rw [if_pos hxy]
      refine List.pairwise_cons.mpr ⟨?_, h⟩
      intro b hb
      rcases List.mem_cons.mp hb with rfl | hb
      · exact hxy
      · exact le_trans (hy.1 b hb) hxy
    · rw [if_neg hxy]
      refine List.pairwise_cons.mpr ⟨?_, ih hy.2⟩
      intro b hb
      rcases (mem_orderedInsertKeyRev key x b ys).mp hb with rfl | hb
      · exact le_of_not_le hxy
      · exact hy.1 b hb

lemma pairwise_sortByKeyRev {α : Type} (key : α → ℕ) (l : List α) :
    (sortByKeyRev key l).Pairwise (fun a b => key b ≤ key a) := by
  induction l with
  | nil => simp [sortByKeyRev]
  | cons x xs ih =>
    rw [sortByKeyRev]
    exact pairwise_orderedInsertKeyRev key x _ ih

lemma daysInMonth_le (y m : ℕ) : daysInMonth y m ≤ 31 := by
  unfold daysInMonth
  repeat' split
  all_goals omega

lemma strptimeYMD_bounds {s : String} {y m d : ℕ}
    (h : strptimeYMD s = some (y, m, d)) :
    1 ≤ y ∧ y ≤ 9999 ∧ 1 ≤ m ∧ m ≤ 12 ∧ 1 ≤ d ∧ d ≤ 31 := by
  have hdm := daysInMonth_le y m
  unfold strptimeYMD at h
  repeat' split at h
  all_goals cases h
  omega

lemma pyParseDate_bounds {od : Option String} {k : ℕ}
    (h : pyParseDate od = some k) : 10101 ≤ k ∧ k ≤ 99991231 := by
  cases od with
  | none => cases h
  | some s =>
    simp only [pyParseDate] at h
    cases hs : strptimeYMD s with
    | none => rw [hs] at h; cases h
    | some t =>
      rw [hs] at h
      obtain ⟨y, m, d⟩ := t
      simp only [Option.map] at h
      cases h
      have hb := strptimeYMD_bounds hs
      omega

lemma keyAsc_missing {s : Scholarship} (h : missingDeadline s = true) :
    keyAsc s = dtMaxKey := by
  unfold missingDeadline at h
  cases hp : pyParseDate s.deadline with
  | none => unfold keyAsc; rw [hp]
  | some k => simp [hp] at h

lemma keyAsc_lt_max {s : Scholarship} (h : missingDeadline s = false) :
    keyAsc s < dtMaxKey := by
  unfold missingDeadline at h
  cases hp : pyParseDate s.deadline with
  | none => simp [hp] at h
  | some k =>
    have hb := pyParseDate_bounds hp
    have hK : keyAsc s = k * 100000000000 := by unfold keyAsc; rw [hp]
    rw [hK]
    unfold dtMaxKey
    omega

lemma keyDesc_missing {s : Scholarship} (h : missingDeadline s = true) :
    keyDesc s = dtMinKey := by
  unfold missingDeadline at h
  cases hp : pyParseDate s.deadline with
  | none => unfold keyDesc; rw [hp]
  | some k => simp [hp] at h

lemma keyDesc_valid_eq_min {s : Scholarship}
    (h : missingDeadline s = false) (hle : keyDesc s ≤ dtMinKey) :
    pyParseDate s.deadline = some 10101 := by
  unfold missingDeadline at h
  cases hp : pyParseDate s.deadline with
  | none => simp [hp] at h
  | some k =>
    have hb := pyParseDate_bounds hp
    have hK : keyDesc s = k * 100000000000 := by unfold keyDesc; rw [hp]
    rw [hK] at hle
    unfold dtMinKey at hle
    have hk : k = 10101 := by omega
    simp [hk]

lemma scholarshipsRoute_asc (qRaw cRaw : String)
    (rows : List Scholarship) :
    scholarshipsRoute qRaw cRaw "deadline_asc" rows
      = sortByKey keyAsc (scholarshipsRoute qRaw cRaw "" rows) := by
  unfold scholarshipsRoute
  rw [if_pos rfl, if_neg (by decide : ¬ ("" : String) = "deadline_asc"),
    if_neg (by decide : ¬ ("" : String) = "deadline_desc")]

lemma scholarshipsRoute_desc (qRaw cRaw : String)
    (rows : List Scholarship) :
    scholarshipsRoute qRaw cRaw "deadline_desc" rows
      = sortByKeyRev keyDesc (scholarshipsRoute qRaw cRaw "" rows) := by
  unfold scholarshipsRoute
  rw [if_neg (by decide : ¬ ("deadline_desc" : String) = "deadline_asc"),
    if_pos rfl, if_neg (by decide : ¬ ("" : String) = "deadline_asc"),
    if_neg (by decide : ¬ ("" : String) = "deadline_desc")]

/-- Claim C5 (amended): under `deadline_asc`, listings with unparsable
or absent deadlines are keyed as `datetime.max` and come after every
listing with a valid deadline; under `deadline_desc` they are keyed as
`datetime.min` and come after every listing with a valid deadline,
except that a listing whose deadline parses exactly to the minimum
representable date 0001-01-01 shares the missing-value key, so a
missing-deadline listing that precedes it in the input stays before
it. -/
theorem c5_missing_deadline_order (qRaw cRaw : String)
    (rows : List Scholarship) :
    ((scholarshipsRoute qRaw cRaw "deadline_asc" rows).Pairwise
      (fun a b => missingDeadline a = true → missingDeadline b = true))
    ∧ ((scholarshipsRoute qRaw cRaw "deadline_desc" rows).Pairwise
      (fun a b => missingDeadline a = true →
        missingDeadline b = true ∨ pyParseDate b.deadline = some 10101)) := by
  constructor
  · rw [scholarshipsRoute_asc]
    refine (pairwise_sortByKey keyAsc _).imp ?_
    intro a b hab hma
    by_contra hmb
    have hmb' : missingDeadline b = false := by
      cases hb : missingDeadline b
      · rfl
      · exact absurd hb hmb
    have h1 := keyAsc_missing hma
    have h2 := keyAsc_lt_max hmb'
    rw [h1] at hab
    omega
  · rw [scholarshipsRoute_desc]
    refine (pairwise_sortByKeyRev keyDesc _).imp ?_
    intro a b hab hma
    cases hb : missingDeadline b with
    | true => exact Or.inl rfl
    | false =>
      refine Or.inr ?_
      have h1 := keyDesc_missing hma
      rw [h1] at hab
      exact keyDesc_valid_eq_min hb hab

/-- Counterexample for C5 as stated: under `deadline_desc`, a listing
with no deadline placed before a listing whose deadline is the minimum
date "0001-01-01" keeps its position (both carry the `datetime.min`
key and the sort is stable), so the missing-deadline listing is NOT
placed after every listing with a valid parsed date. -/
theorem c5_desc_counterexample :
    ¬ ((scholarshipsRoute "" "" "deadline_desc"
        [sampleGpa, sampleMinDate]).Pairwise
      (fun a b => missingDeadline a = true → missingDeadline b = true)) := by
  intro hp
  have hroute : scholarshipsRoute "" "" "deadline_desc"
      [sampleGpa, sampleMinDate] = [sampleGpa, sampleMinDate] := by decide
  rw [hroute] at hp
  have h1 := (List.pairwise_cons.mp hp).1 sampleMinDate (by simp)
  have h2 := h1 (by decide)
  exact absurd h2 (by decide)

lemma apiGateKeep_map_jnum (g : Option ℚ) (r : Scholarship) :
    apiGateKeep (g.map JsonVal.jnum) r = formGateKeep g r := by
  cases g <;> cases hm : r.min_gpa <;>
    simp [apiGateKeep, formGateKeep, jsonFloat?, Option.map, hm]

/-- Claim C2 (amended): the server-rendered form flow and the JSON API
select exactly the same listings on every input whose GPA field, after
stripping, is empty or parses as a number; the permissive treatment of
a non-numeric caller GPA holds only on the API side, because the form
flow's `float(gpa_raw)` at app.py:476 runs outside any `try` and makes
the request raise instead (see the counterexample). -/
theorem c2_channels_agree (c l f gRaw : String) (intl : Bool)
    (g : Option ℚ) (rows : List Scholarship)
    (hg : pyFloatOrNone (pyStrip gRaw) = Except.ok g) :
    eligibilityPost c l f gRaw (if intl then some "on" else none) rows
      = Except.ok (apiEligibility c l f (g.map JsonVal.jnum)
          (some (JsonVal.jbool intl)) rows) := by
  unfold eligibilityPost apiEligibility
  rw [hg]
  have key : ∀ (A B F G : Scholarship → Bool),
      (∀ x, A x = B x) → (∀ x, F x = G x) →
      (rows.filter A).filter F = (rows.filter B).filter G := by
    intro A B F G hab hfg
    rw [List.filter_congr (fun x _ => hab x),
      List.filter_congr (fun x _ => hfg x)]
  exact congrArg Except.ok
    (key _ _ _ _ (fun x => by cases intl <;> rfl)
      (fun x => (apiGateKeep_map_jnum g x).symm))

/-- Counterexample for C2 as stated: on the input with GPA "abc" the
two channels do not produce the same answer — the form flow raises an
uncaught `ValueError` while the API returns the listing under the
permissive gate. -/
theorem c2_channels_counterexample :
    eligibilityPost "" "" "" "abc" none [sampleGpa] = Except.error ()
    ∧ apiEligibility "" "" "" (some (JsonVal.jstr "abc")) none [sampleGpa]
      = [sampleGpa] :=
  ⟨by decide, by decide⟩

/-- Witness for C2 (amended) at a numeric GPA: both channels agree on
caller GPA 3.5 against the 3.5-minimum sample listing. -/
theorem c2_channels_agree_witness :
    pyFloatOrNone (pyStrip "3.5") = Except.ok (some (mkRat 7 2))
    ∧ eligibilityPost "" "" "" "3.5" (if false then some "on" else none)
        [sampleGpa]
      = Except.ok (apiEligibility "" "" ""
          ((some (mkRat 7 2)).map JsonVal.jnum)
          (some (JsonVal.jbool false)) [sampleGpa]) :=
  ⟨by decide, c2_channels_agree "" "" "" "3.5" false (some (mkRat 7 2))
    [sampleGpa] (by decide)⟩

/-- Claim C3 evaluated at the failing input: a non-empty, non-numeric
`gpa` in the eligibility form submission aborts the request with an
uncaught `ValueError` (app.py:476), contradicting the spec's
"never surfaced as an error".  The other half of the claim does hold:
an unparsable deadline string is silently keyed as a sentinel date and
the browse route still returns the listing normally, and the API
treats a non-numeric GPA as absent. -/
theorem c3_form_gpa_error :
    eligibilityPost "" "" "" "3..5" none [sampleGpa] = Except.error ()
    ∧ scholarshipsRoute "" "" "deadline_asc" [sampleBadDate]
        = [sampleBadDate]
    ∧ apiEligibility "" "" "" (some (JsonVal.jstr "3..5")) none [sampleGpa]
        = apiEligibility "" "" "" none none [sampleGpa] :=
  ⟨by decide, by decide, by decide⟩

lemma splitlinesAux_no_break (line : List Char) (acc : List Char)
    (h : ∀ c ∈ line, isLineBreak c = false)
    (hne : acc.reverse ++ line ≠ []) :
    splitlinesAux line acc false = [acc.reverse ++ line] := by
  induction line generalizing acc with
  | nil =>
    rw [splitlinesAux]
    rw [List.append_nil] at hne
    have : acc.isEmpty = false := by
      cases hacc : acc
      · exact absurd (by simp [hacc]) hne
      · simp [hacc]
    rw [this]
    simp
  | cons c cs ih =>
    have hc : isLineBreak c = false := h c (List.mem_cons_self c cs)
    have hcs : ∀ x ∈ cs, isLineBreak x = false :=
      fun x hx => h x (List.mem_cons_of_mem c hx)
    have hcr : (c == '\r') = false := by
      cases hcr : c == '\r'
      · rfl
      · have hce := eq_of_beq hcr
        subst hce
        exact absurd hc (by decide)
    rw [splitlinesAux]
    simp only [Bool.false_and, hcr, hc, if_neg, Bool.false_eq_true,
      not_false_eq_true, ite_false]
    rw [ih (c :: acc) hcs (by simp)]
    simp

lemma splitlinesAux_join_cons (line rest : List Char) (acc : List Char)
    (h : ∀ c ∈ line, isLineBreak c = false) :
    splitlinesAux (line ++ '\n' :: rest) acc false
      = (acc.reverse ++ line) :: splitlinesAux rest [] false := by
  induction line generalizing acc with
  | nil =>
    rw [List.nil_append, splitlinesAux]
    simp [show isLineBreak '\n' = true from by decide]
  | cons c cs ih =>
    have hc : isLineBreak c = false := h c (List.mem_cons_self c cs)
    have hcs : ∀ x ∈ cs, isLineBreak x = false :=
      fun x hx => h x (List.mem_cons_of_mem c hx)
    have hcr : (c == '\r') = false := by
      cases hcr : c == '\r'
      · rfl
      · have hce := eq_of_beq hcr
        subst hce
        exact absurd hc (by decide)
    rw [List.cons_append, splitlinesAux]
    simp only [Bool.false_and, hcr, hc, Bool.false_eq_true,
      not_false_eq_true, ite_false]
    rw [ih (c :: acc) hcs]
    simp

lemma splitlines_joinNL (ls : List (List Char))
    (h : ∀ l ∈ ls, l ≠ [] ∧ ∀ c ∈ l, isLineBreak c = false) :
    splitlinesAux (joinNL ls) [] false = ls := by
  induction ls with
  | nil => rfl
  | cons x tl ih =>
    rcases tl with _ | ⟨y, tl2⟩
    · have hx := h x (List.mem_cons_self x [])
      show splitlinesAux x [] false = [x]
      rw [splitlinesAux_no_break x [] hx.2 (by simpa using hx.1)]
      simp
    · have hx := h x (List.mem_cons_self x (y :: tl2))
      show splitlinesAux (x ++ '\n' :: joinNL (y :: tl2)) [] false
        = x :: y :: tl2
      rw [splitlinesAux_join_cons x _ [] hx.2]
      rw [ih (fun l hl => h l (List.mem_cons_of_mem x hl))]
      simp

lemma joinNL_ne_nil {ls : List (List Char)} (hne : ls ≠ [])
    (h : ∀ l ∈ ls, l ≠ []) : joinNL ls ≠ [] := by
  rcases ls with _ | ⟨x, _ | ⟨y, tl⟩⟩
  · exact absurd rfl hne
  · simpa [joinNL] using h x (by simp)
  · show x ++ '\n' :: joinNL (y :: tl) ≠ []
    simp

/-- Claim C9 (amended): the checklist storage round-trips for every
ordered sequence of items that are non-empty and contain no
line-boundary character (in particular for the empty sequence, which
stores as `""` and reads back as `[]`); an item that is empty or
contains a line break is not recovered verbatim, because the newline
join is not injective on such sequences and a falsy stored text reads
as `[]` (see the counterexample). -/
theorem c9_checklist_roundtrip (items : List String)
    (h : ∀ x ∈ items, x ≠ "" ∧ ∀ c ∈ x.data, isLineBreak c = false) :
    readChecklist (some (storeChecklist items)) = items := by
  unfold readChecklist storeChecklist
  rcases hitems : items with _ | ⟨x, tl⟩
  · decide
  · have hjoin : joinNL ((x :: tl).map String.data) ≠ [] := by
      refine joinNL_ne_nil (by simp) ?_
      intro l hl
      rcases List.mem_map.mp hl with ⟨w, hw, rfl⟩
      intro hd
      have hw' := (h w (hitems ▸ hw)).1
      exact hw' (String.ext (hd.trans rfl))
    have hcond : ¬ (String.mk (joinNL ((x :: tl).map String.data)) = "") :=
      fun he => hjoin (congrArg String.data he)
    show (if String.mk (joinNL ((x :: tl).map String.data)) = "" then []
      else pySplitlines (String.mk (joinNL ((x :: tl).map String.data))))
        = x :: tl
    rw [if_neg hcond]
    unfold pySplitlines
    rw [show (String.mk (joinNL ((x :: tl).map String.data))).data
      = joinNL ((x :: tl).map String.data) from rfl]
    rw [splitlines_joinNL]
    · rw [List.map_map]
      have : (fun l => String.mk l) ∘ String.data = id := by
        funext w
        rfl
      rw [this, List.map_id]
    · intro l hl
      rcases List.mem_map.mp hl with ⟨w, hw, rfl⟩
      have hw' := h w (hitems ▸ hw)
      refine ⟨fun hd => hw'.1 (String.ext (hd.trans rfl)), hw'.2⟩

/-- Witness for C9 (amended): the spec's own example round-trips. -/
theorem c9_checklist_roundtrip_witness :
    readChecklist (some (storeChecklist
        ["Transcript", "Essay", "Recommendation letter"]))
      = ["Transcript", "Essay", "Recommendation letter"] :=
  c9_checklist_roundtrip ["Transcript", "Essay", "Recommendation letter"]
    (by decide)

/-- Counterexample for C9 as stated: an item containing a newline is
split at read time, so the stored sequence `["a\nb"]` reads back as
`["a", "b"]`, not as the original one-element sequence. -/
theorem c9_checklist_counterexample :
    readChecklist (some (storeChecklist ["a\nb"])) ≠ ["a\nb"] := by
  decide

/-- Claim C10: when no new image (respectively brochure) file is
uploaded with the admin edit form — the file part absent or its
filename empty — the stored `image_filename` (respectively
`brochure_filename`) is left unchanged by the update, while `id` is
preserved and every other column is replaced by the submitted value. -/
theorem c10_edit_preserves_files (r : Scholarship) (f : EditForm)
    (s' : Scholarship) (h : editScholarship r f = Except.ok s') :
    ((f.image_file = none ∨ f.image_file = some "") →
      s'.image_filename = r.image_filename)
    ∧ ((f.brochure_file = none ∨ f.brochure_file = some "") →
      s'.brochure_filename = r.brochure_filename)
    ∧ s'.id = r.id
    ∧ s'.name = pyStrip f.name
    ∧ s'.country = pyStrip f.country
    ∧ s'.university = pyStrip f.university
    ∧ s'.level = pyStrip f.level
    ∧ s'.field = pyStrip f.field
    ∧ s'.tags = pyStrip f.tags
    ∧ s'.deadline = (if pyStrip f.deadline = "" then none
        else some (pyStrip f.deadline))
    ∧ s'.link = pyStrip f.link
    ∧ s'.checklist = pyStrip f.checklist
    ∧ pyFloatOrNone (pyStrip f.min_gpa) = Except.ok s'.min_gpa
    ∧ s'.is_international_only = (f.is_international_only == some "on") := by
  unfold editScholarship at h
  cases hg : pyFloatOrNone (pyStrip f.min_gpa) with
  | error e => rw [hg] at h; cases h
  | ok mg =>
    rw [hg] at h
    cases h
    refine ⟨?_, ?_, rfl, rfl, rfl, rfl, rfl, rfl, rfl, rfl, rfl, rfl,
      rfl, rfl⟩
    · rintro (himg | himg) <;> simp [himg]
    · rintro (hbro | hbro) <;> simp [hbro]

/-- Witness for C10: editing the stored sample without uploading files
keeps both stored filenames and replaces the name. -/
theorem c10_edit_preserves_files_witness :
    sampleEdited.image_filename = sampleStored.image_filename
    ∧ sampleEdited.brochure_filename = sampleStored.brochure_filename
    ∧ sampleEdited.name = pyStrip sampleEditForm.name := by
  have h := c10_edit_preserves_files sampleStored sampleEditForm
    sampleEdited (by decide)
  exact ⟨h.1 (Or.inl rfl), h.2.1 (Or.inr rfl), h.2.2.2.1⟩

/-- Witness for C1: a caller GPA of 3.0 against the sample listing's
minimum of 3.5 is excluded by the form gate. -/
theorem c1_gpa_gate_witness :
    formGateKeep (some (mkRat 3 1)) sampleGpa = false :=
  (c1_gpa_gate (some (mkRat 3 1)) none sampleGpa).1.mpr
    ⟨mkRat 3 1, mkRat 7 2, rfl, rfl, by decide⟩

/-- Witness for C5 (amended) on a concrete store: ascending sort keeps
every missing-deadline listing behind the dated ones. -/
theorem c5_missing_deadline_order_witness :
    (scholarshipsRoute "" "" "deadline_asc"
        [sampleGpa, sampleMinDate]).Pairwise
      (fun a b => missingDeadline a = true → missingDeadline b = true) :=
  (c5_missing_deadline_order "" "" [sampleGpa, sampleMinDate]).1
